import Mathlib

/-!
Verification development for the Andela-Scoring-Scale tracker.

The Python sources under src/tracker are shallowly embedded below:
Python numbers (ints and floats) are modelled as rationals, dates handed
to the scoring engine as integer day numbers (days since 1970-01-01),
date strings in the ledger as plain strings compared lexicographically
(exactly as the Python code compares them), and raised exceptions as
Except values.
-/

namespace Tracker

/-- Embedding of Python round(x, 1) restricted to exact arithmetic:
round-half-to-even on the integer 10*x, then divide by 10.  The helper
rounds a rational to the nearest integer, ties to the even neighbour. -/
def roundHalfEven (q : ℚ) : ℤ :=
  if q - ⌊q⌋ < 1/2 then ⌊q⌋
  else if 1/2 < q - ⌊q⌋ then ⌊q⌋ + 1
  else if Even ⌊q⌋ then ⌊q⌋ else ⌊q⌋ + 1

/-- Python round(x, 1): round to one decimal place, ties to even. -/
def pyRound1 (q : ℚ) : ℚ := ((roundHalfEven (q * 10) : ℤ) : ℚ) / 10

/-- The five classification labels of tracker/scoring.py. -/
inductive Classification where
  | atRisk
  | needsImprovement
  | average
  | good
  | excellent
deriving DecidableEq, Repr

/-- Severity order of the labels: AT RISK is worst, EXCELLENT best. -/
def classRank : Classification → ℕ
  | .atRisk => 0
  | .needsImprovement => 1
  | .average => 2
  | .good => 3
  | .excellent => 4

/-- The metrics dict fields read by tracker/scoring.py compute_scores
(the remaining keys of the metrics dict are never read by it). -/
structure Metrics where
  active_days : ℚ
  total_commits : ℚ
  prs_opened : ℚ
  prs_merged : ℚ
  issues_opened : ℚ
  comments_given : ℚ
  comments_received : ℚ
  lines_added : ℚ
  lines_deleted : ℚ
deriving DecidableEq

/-- The scoring-relevant config entries after the float() parsing that
compute_scores performs on each config.get lookup; bootcampStart is the
date parsed from the bootcamp_start_date entry (with its fallback),
as a day number. -/
structure ScoringConfig where
  consistency_max_points : ℚ
  collaboration_max_points : ℚ
  code_volume_max_points : ℚ
  quality_max_points : ℚ
  consistency_active_days_weight : ℚ
  consistency_commits_weight : ℚ
  pr_points_each : ℚ
  review_points_each : ℚ
  issue_points_each : ℚ
  comment_points_each : ℚ
  collab_pr_cap : ℚ
  collab_review_cap : ℚ
  collab_issue_cap : ℚ
  collab_comment_cap : ℚ
  lines_added_max_scale : ℚ
  lines_deleted_max_scale : ℚ
  code_volume_added_weight : ℚ
  code_volume_deleted_weight : ℚ
  merge_rate_max_points : ℚ
  feedback_max_points : ℚ
  feedback_points_each : ℚ
  classify_excellent : ℚ
  classify_good : ℚ
  classify_average : ℚ
  classify_needs_improvement : ℚ
  bootcampStart : ℤ
deriving DecidableEq

/-- The hardcoded defaults of compute_scores (and of CONFIG_DEFAULTS in
tracker/constants.py); 20507 is 2026-02-23 as days since 1970-01-01. -/
def defaultConfig : ScoringConfig where
  consistency_max_points := 30
  collaboration_max_points := 25
  code_volume_max_points := 25
  quality_max_points := 20
  consistency_active_days_weight := 20
  consistency_commits_weight := 10
  pr_points_each := 2
  review_points_each := 3/2
  issue_points_each := 1
  comment_points_each := 1/2
  collab_pr_cap := 8
  collab_review_cap := 7
  collab_issue_cap := 5
  collab_comment_cap := 5
  lines_added_max_scale := 500
  lines_deleted_max_scale := 200
  code_volume_added_weight := 15
  code_volume_deleted_weight := 10
  merge_rate_max_points := 15
  feedback_max_points := 5
  feedback_points_each := 1
  classify_excellent := 80
  classify_good := 60
  classify_average := 40
  classify_needs_improvement := 20
  bootcampStart := 20507

/-- The classification if-chain at the end of compute_scores
(tracker/scoring.py lines 88-97): descending threshold tests, first
match wins. -/
def classify (cfg : ScoringConfig) (total_score : ℚ) : Classification :=
  if cfg.classify_excellent ≤ total_score then .excellent
  else if cfg.classify_good ≤ total_score then .good
  else if cfg.classify_average ≤ total_score then .average
  else if cfg.classify_needs_improvement ≤ total_score then .needsImprovement
  else .atRisk

/-- Result dict of compute_scores. -/
structure ScoreResult where
  consistency : ℚ
  collaboration : ℚ
  code_volume : ℚ
  quality : ℚ
  total_score : ℚ
  classification : Classification
deriving DecidableEq

/-- Line 64 of tracker/scoring.py: days elapsed since the configured
bootcamp start, floored at 1; today is datetime.now(timezone.utc).date()
as a day number. -/
def total_days (today : ℤ) (cfg : ScoringConfig) : ℚ :=
  ((max (today - cfg.bootcampStart) 1 : ℤ) : ℚ)

/-- Lines 65-69 of tracker/scoring.py: the Consistency sub-score. -/
def consistency_score (today : ℤ) (m : Metrics) (cfg : ScoringConfig) : ℚ :=
  Min.min cfg.consistency_max_points (pyRound1
    (Min.min 1 (m.active_days / total_days today cfg) * cfg.consistency_active_days_weight
      + Min.min cfg.consistency_commits_weight
          (m.total_commits / total_days today cfg * cfg.consistency_commits_weight)))

/-- Lines 71-75 of tracker/scoring.py: the Collaboration sub-score. -/
def collaboration_score (m : Metrics) (cfg : ScoringConfig) : ℚ :=
  Min.min cfg.collaboration_max_points (pyRound1
    (Min.min cfg.collab_pr_cap (m.prs_opened * cfg.pr_points_each)
      + Min.min cfg.collab_review_cap (m.comments_given * cfg.review_points_each)
      + Min.min cfg.collab_issue_cap (m.issues_opened * cfg.issue_points_each)
      + Min.min cfg.collab_comment_cap
          ((m.comments_given + m.comments_received) * cfg.comment_points_each)))

/-- Lines 77-79 of tracker/scoring.py: the Code Volume sub-score. -/
def code_volume_score (m : Metrics) (cfg : ScoringConfig) : ℚ :=
  Min.min cfg.code_volume_max_points (pyRound1
    (Min.min cfg.code_volume_added_weight
        (m.lines_added / cfg.lines_added_max_scale * cfg.code_volume_added_weight)
      + Min.min cfg.code_volume_deleted_weight
          (m.lines_deleted / cfg.lines_deleted_max_scale * cfg.code_volume_deleted_weight)))

/-- Lines 81-84 of tracker/scoring.py: the Quality sub-score. -/
def quality_score (m : Metrics) (cfg : ScoringConfig) : ℚ :=
  Min.min cfg.quality_max_points (pyRound1
    (Min.min cfg.merge_rate_max_points
        ((if 0 < m.prs_opened then m.prs_merged / m.prs_opened else 0) * cfg.merge_rate_max_points)
      + Min.min cfg.feedback_max_points (m.comments_received * cfg.feedback_points_each)))

/-- Line 86 of tracker/scoring.py: the rounded total. -/
def total_score_of (today : ℤ) (m : Metrics) (cfg : ScoringConfig) : ℚ :=
  pyRound1 (consistency_score today m cfg + collaboration_score m cfg
    + code_volume_score m cfg + quality_score m cfg)

/-- Embedding of tracker/scoring.py compute_scores.  The parameter today
is the value of datetime.now(timezone.utc).date() at call time, as a day
number; the source reads it from the ambient clock. -/
def compute_scores (today : ℤ) (m : Metrics) (cfg : ScoringConfig) : ScoreResult :=
  { consistency := consistency_score today m cfg
    collaboration := collaboration_score m cfg
    code_volume := code_volume_score m cfg
    quality := quality_score m cfg
    total_score := total_score_of today m cfg
    classification := classify cfg (total_score_of today m cfg) }

/-- Rounding a rational that is already an integer is the identity. -/
lemma roundHalfEven_intCast (n : ℤ) : roundHalfEven (n : ℚ) = n := by
  unfold roundHalfEven
  rw [Int.floor_intCast]
  norm_num

/-- A rational expressible with denominator 10. -/
def IsTenth (q : ℚ) : Prop := ∃ n : ℤ, q = (n : ℚ) / 10

lemma isTenth_pyRound1 (q : ℚ) : IsTenth (pyRound1 q) :=
  ⟨roundHalfEven (q * 10), rfl⟩

lemma IsTenth.min {a b : ℚ} (ha : IsTenth a) (hb : IsTenth b) : IsTenth (Min.min a b) := by
  obtain ⟨x, rfl⟩ := ha
  obtain ⟨y, rfl⟩ := hb
  rcases le_total x y with h | h
  · rw [min_eq_left (by gcongr)]
    exact ⟨x, rfl⟩
  · rw [min_eq_right (by gcongr)]
    exact ⟨y, rfl⟩

lemma IsTenth.add {a b : ℚ} (ha : IsTenth a) (hb : IsTenth b) : IsTenth (a + b) := by
  obtain ⟨x, rfl⟩ := ha
  obtain ⟨y, rfl⟩ := hb
  exact ⟨x + y, by push_cast; ring⟩

lemma pyRound1_eq_self {q : ℚ} (h : IsTenth q) : pyRound1 q = q := by
  obtain ⟨n, rfl⟩ := h
  unfold pyRound1
  rw [show (n : ℚ) / 10 * 10 = (n : ℚ) by field_simp, roundHalfEven_intCast]

lemma consistency_score_le (today : ℤ) (m : Metrics) (cfg : ScoringConfig) :
    consistency_score today m cfg ≤ cfg.consistency_max_points :=
  min_le_left _ _

lemma collaboration_score_le (m : Metrics) (cfg : ScoringConfig) :
    collaboration_score m cfg ≤ cfg.collaboration_max_points :=
  min_le_left _ _

lemma code_volume_score_le (m : Metrics) (cfg : ScoringConfig) :
    code_volume_score m cfg ≤ cfg.code_volume_max_points :=
  min_le_left _ _

lemma quality_score_le (m : Metrics) (cfg : ScoringConfig) :
    quality_score m cfg ≤ cfg.quality_max_points :=
  min_le_left _ _

/-- C2: for every metrics input with non-negative counts and the default
config, each of the four sub-scores of compute_scores is at most its
configured maximum, and total_score is at most the sum of the four
maxima (30 + 25 + 25 + 20 = 100). -/
theorem compute_scores_cap_invariant (today : ℤ) (m : Metrics)
    (h0 : 0 ≤ m.active_days) (h1 : 0 ≤ m.total_commits) (h2 : 0 ≤ m.prs_opened)
    (h3 : 0 ≤ m.prs_merged) (h4 : 0 ≤ m.issues_opened) (h5 : 0 ≤ m.comments_given)
    (h6 : 0 ≤ m.comments_received) (h7 : 0 ≤ m.lines_added) (h8 : 0 ≤ m.lines_deleted) :
    (compute_scores today m defaultConfig).consistency
        ≤ defaultConfig.consistency_max_points
    ∧ (compute_scores today m defaultConfig).collaboration
        ≤ defaultConfig.collaboration_max_points
    ∧ (compute_scores today m defaultConfig).code_volume
        ≤ defaultConfig.code_volume_max_points
    ∧ (compute_scores today m defaultConfig).quality
        ≤ defaultConfig.quality_max_points
    ∧ (compute_scores today m defaultConfig).total_score
        ≤ defaultConfig.consistency_max_points + defaultConfig.collaboration_max_points
          + defaultConfig.code_volume_max_points + defaultConfig.quality_max_points := by
  have t30 : IsTenth ((30 : ℚ)) := ⟨300, by norm_num⟩
  have t25 : IsTenth ((25 : ℚ)) := ⟨250, by norm_num⟩
  have t20 : IsTenth ((20 : ℚ)) := ⟨200, by norm_num⟩
  have i1 : IsTenth (consistency_score today m defaultConfig) :=
    IsTenth.min t30 (isTenth_pyRound1 _)
  have i2 : IsTenth (collaboration_score m defaultConfig) :=
    IsTenth.min t25 (isTenth_pyRound1 _)
  have i3 : IsTenth (code_volume_score m defaultConfig) :=
    IsTenth.min t25 (isTenth_pyRound1 _)
  have i4 : IsTenth (quality_score m defaultConfig) :=
    IsTenth.min t20 (isTenth_pyRound1 _)
  refine ⟨consistency_score_le today m defaultConfig,
    collaboration_score_le m defaultConfig,
    code_volume_score_le m defaultConfig,
    quality_score_le m defaultConfig, ?_⟩
  have e : (compute_scores today m defaultConfig).total_score
      = consistency_score today m defaultConfig + collaboration_score m defaultConfig
        + code_volume_score m defaultConfig + quality_score m defaultConfig :=
    pyRound1_eq_self (((i1.add i2).add i3).add i4)
  rw [e]
  have b1 := consistency_score_le today m defaultConfig
  have b2 := collaboration_score_le m defaultConfig
  have b3 := code_volume_score_le m defaultConfig
  have b4 := quality_score_le m defaultConfig
  linarith

/-- Witness for C2: the cap invariant evaluated at a concrete learner. -/
theorem compute_scores_cap_invariant_witness :
    (0 : ℚ) ≤ 5
    ∧ (compute_scores 20600 ⟨5, 40, 3, 2, 1, 4, 2, 1000, 300⟩ defaultConfig).total_score
        ≤ defaultConfig.consistency_max_points + defaultConfig.collaboration_max_points
          + defaultConfig.code_volume_max_points + defaultConfig.quality_max_points :=
  ⟨by norm_num,
    (compute_scores_cap_invariant 20600 ⟨5, 40, 3, 2, 1, 4, 2, 1000, 300⟩
      (by norm_num) (by norm_num) (by norm_num) (by norm_num) (by norm_num)
      (by norm_num) (by norm_num) (by norm_num) (by norm_num)).2.2.2.2⟩

/-- C6: compute_scores returns exactly the classification of its total
score; for any config thresholds the label is monotone in the total
score under the order AT RISK < NEEDS IMPROVEMENT < AVERAGE < GOOD <
EXCELLENT; and under the default thresholds the buckets are total at
least 80 EXCELLENT, at least 60 GOOD, at least 40 AVERAGE, at least 20
NEEDS IMPROVEMENT, otherwise AT RISK. -/
theorem classification_totality_and_monotone :
    (∀ (today : ℤ) (m : Metrics) (cfg : ScoringConfig),
      (compute_scores today m cfg).classification
        = classify cfg (compute_scores today m cfg).total_score)
    ∧ (∀ (cfg : ScoringConfig) (t1 t2 : ℚ), t1 ≤ t2 →
        classRank (classify cfg t1) ≤ classRank (classify cfg t2))
    ∧ (∀ t : ℚ,
        (80 ≤ t → classify defaultConfig t = .excellent)
        ∧ (60 ≤ t → t < 80 → classify defaultConfig t = .good)
        ∧ (40 ≤ t → t < 60 → classify defaultConfig t = .average)
        ∧ (20 ≤ t → t < 40 → classify defaultConfig t = .needsImprovement)
        ∧ (t < 20 → classify defaultConfig t = .atRisk)) := by
  refine ⟨fun today m cfg => rfl, ?_, ?_⟩
  · intro cfg t1 t2 h
    unfold classify
    split_ifs <;> simp [classRank] <;> linarith
  · intro t
    refine ⟨?_, ?_, ?_, ?_, ?_⟩ <;>
      · intros
        unfold classify defaultConfig
        split_ifs <;> first | rfl | linarith

/-- Witness for C6 at concrete scores 30 and 85. -/
theorem classification_totality_and_monotone_witness :
    classRank (classify defaultConfig 30) ≤ classRank (classify defaultConfig 85)
    ∧ classify defaultConfig 85 = .excellent :=
  ⟨classification_totality_and_monotone.2.1 defaultConfig 30 85 (by norm_num),
    (classification_totality_and_monotone.2.2 85).1 (by norm_num)⟩

/-- C9 counterexample: compute_scores reads the current date (line 64 of
tracker/scoring.py): the same metrics and config scored on day 20508
(one day after the default bootcamp start) and on day 21507 (1000 days
after) give totals 30 and 1 respectively, so the result is not
independent of when the function is invoked. -/
theorem compute_scores_uses_current_date :
    (compute_scores 20508 ⟨1, 100, 0, 0, 0, 0, 0, 0, 0⟩ defaultConfig).total_score = 30
    ∧ (compute_scores 21507 ⟨1, 100, 0, 0, 0, 0, 0, 0, 0⟩ defaultConfig).total_score = 1
    ∧ compute_scores 20508 ⟨1, 100, 0, 0, 0, 0, 0, 0, 0⟩ defaultConfig
        ≠ compute_scores 21507 ⟨1, 100, 0, 0, 0, 0, 0, 0, 0⟩ defaultConfig := by
  have e1 : (compute_scores 20508 ⟨1, 100, 0, 0, 0, 0, 0, 0, 0⟩ defaultConfig).total_score
      = 30 := by
    norm_num [compute_scores, total_score_of, consistency_score, collaboration_score,
      code_volume_score, quality_score, total_days, defaultConfig, pyRound1, roundHalfEven]
  have e2 : (compute_scores 21507 ⟨1, 100, 0, 0, 0, 0, 0, 0, 0⟩ defaultConfig).total_score
      = 1 := by
    norm_num [compute_scores, total_score_of, consistency_score, collaboration_score,
      code_volume_score, quality_score, total_days, defaultConfig, pyRound1, roundHalfEven]
  refine ⟨e1, e2, fun h => ?_⟩
  rw [h, e2] at e1
  norm_num at e1

/-- C9 as amended: compute_scores is a deterministic function of the
metrics, the config, and the current date; the current date can only
influence the Consistency sub-score (and through it the total and the
classification): the Collaboration, Code Volume, and Quality sub-scores
are identical for any two invocation dates. -/
theorem compute_scores_pure_given_date (d1 d2 : ℤ) (m : Metrics) (cfg : ScoringConfig) :
    (compute_scores d1 m cfg).collaboration = (compute_scores d2 m cfg).collaboration
    ∧ (compute_scores d1 m cfg).code_volume = (compute_scores d2 m cfg).code_volume
    ∧ (compute_scores d1 m cfg).quality = (compute_scores d2 m cfg).quality :=
  ⟨rfl, rfl, rfl⟩

/-- Sort key of the first pass in sort_daily_raw_metrics (line 90 of
tracker/writers.py): the username cell lowercased, empty for an empty
row. -/
def userKey (r : List String) : String := (r.headD "").toLower

/-- Sort key of the second pass (line 91): the date cell, empty when the
row has fewer than two cells. -/
def dateKey (r : List String) : String := r.getD 1 ""

/-- Username-ascending comparison used by the first sort pass. -/
def userLe (a b : List String) : Prop := userKey a ≤ userKey b

/-- Date-descending comparison used by the second sort pass
(reverse=True on a stable sort keeps equal keys in encounter order). -/
def dateGe (a b : List String) : Prop := dateKey b ≤ dateKey a

instance : DecidableRel userLe :=
  fun a b => inferInstanceAs (Decidable (userKey a ≤ userKey b))

instance : DecidableRel dateGe :=
  fun a b => inferInstanceAs (Decidable (dateKey b ≤ dateKey a))

instance : IsTotal (List String) userLe :=
  ⟨fun a b => le_total (userKey a) (userKey b)⟩

instance : IsTrans (List String) userLe :=
  ⟨fun _ _ _ h1 h2 => le_trans h1 h2⟩

/-- Embedding of tracker/writers.py sort_daily_raw_metrics (lines 74-96)
as a pure table transformation: two stable sort passes over the data
rows, first username ascending case-insensitive, then date descending;
the header row is left in place.  Python list.sort is a stable sort, so
it is modelled by insertionSort, which is stable.  The source returns
the table unchanged when it has at most one row, which coincides with
sorting an empty data-row list. -/
def sort_daily_raw_metrics : List (List String) → List (List String)
  | [] => []
  | headers :: rows =>
      headers :: List.insertionSort dateGe (List.insertionSort userLe rows)

/-- The combined order the sorted data satisfies: primarily date
descending, and within an identical date username ascending
case-insensitively. -/
def lexDateUser (a b : List String) : Prop :=
  dateKey b < dateKey a ∨ (dateKey a = dateKey b ∧ userKey a ≤ userKey b)

lemma lexDateUser_date_le {a b : List String} (h : lexDateUser a b) :
    dateKey b ≤ dateKey a := by
  rcases h with h | ⟨h, _⟩
  · exact le_of_lt h
  · exact le_of_eq h.symm

/-- Stability of the second pass: inserting a row into a lex-sorted list
whose equal-date rows all have username at least the inserted one keeps
the list lex-sorted. -/
lemma orderedInsert_lex (a : List String) :
    ∀ l : List (List String), l.Sorted lexDateUser →
      (∀ b ∈ l, dateKey a = dateKey b → userKey a ≤ userKey b) →
      (List.orderedInsert dateGe a l).Sorted lexDateUser
  | [], _, _ => by simp [List.Sorted]
  | b :: t, hs, hmem => by
      rw [List.sorted_cons] at hs
      by_cases h : dateGe a b
      · simp only [List.orderedInsert, if_pos h]
        rw [List.sorted_cons]
        refine ⟨?_, List.sorted_cons.mpr hs⟩
        intro c hc
        rcases List.mem_cons.mp hc with rfl | hct
        · rcases lt_or_eq_of_le h with hlt | heq
          · exact Or.inl hlt
          · exact Or.inr ⟨heq.symm, hmem c (List.mem_cons_self _ _) heq.symm⟩
        · have hbc := hs.1 c hct
          have hcb : dateKey c ≤ dateKey b := lexDateUser_date_le hbc
          rcases lt_or_eq_of_le (le_trans hcb h) with hlt | heq
          · exact Or.inl hlt
          · exact Or.inr ⟨heq.symm, hmem c (List.mem_cons_of_mem b hct) heq.symm⟩
      · simp only [List.orderedInsert, if_neg h]
        rw [List.sorted_cons]
        constructor
        · intro c hc
          rcases (List.mem_orderedInsert dateGe).mp hc with rfl | hct
          · exact Or.inl (lt_of_not_le h)
          · exact hs.1 c hct
        · exact orderedInsert_lex a t hs.2
            (fun c hc hd => hmem c (List.mem_cons_of_mem b hc) hd)

/-- Two-pass stability: date-descending sorting a username-sorted list
yields the combined lexicographic order. -/
lemma insertionSort_lex :
    ∀ l : List (List String), l.Sorted userLe →
      (List.insertionSort dateGe l).Sorted lexDateUser
  | [], _ => by simp [List.Sorted]
  | a :: l, hs => by
      rw [List.sorted_cons] at hs
      simp only [List.insertionSort]
      refine orderedInsert_lex a _ (insertionSort_lex l hs.2) ?_
      intro b hb _
      exact hs.1 b ((List.perm_insertionSort dateGe l).subset hb)

/-- C7: sort_daily_raw_metrics keeps the header row in place and turns
the data rows into a permutation of themselves that is ordered primarily
by date descending and, within rows of equal date, by username ascending
case-insensitively. -/
theorem sort_daily_raw_metrics_spec (headers : List String) (rows : List (List String)) :
    ∃ srows, sort_daily_raw_metrics (headers :: rows) = headers :: srows
      ∧ rows.Perm srows
      ∧ srows.Pairwise lexDateUser := by
  refine ⟨_, rfl, ?_, ?_⟩
  · exact ((List.perm_insertionSort dateGe _).trans
      (List.perm_insertionSort userLe rows)).symm
  · exact insertionSort_lex _ (List.sorted_insertionSort userLe rows)

/-- Upsert key of a Daily Raw Metrics row (tracker/writers.py lines 57
and 62): lowercased username cell and date cell. -/
def rowKey (r : List String) : String × String := ((r.headD "").toLower, r.getD 1 "")

/-- Lookup in the existing_map dict of write_daily_metrics (lines
54-57): rows are enumerated from sheet row 2, rows shorter than two
cells are skipped, and a later row with the same key overwrites an
earlier one (Python dict assignment), so the lookup returns the last
matching sheet row number.  The counter n is the sheet row number of the
first list element. -/
def lookupKey (k : String × String) : List (List String) → ℕ → Option ℕ
  | [], _ => none
  | row :: rest, n =>
      match lookupKey k rest (n + 1) with
      | some i => some i
      | none => if 2 ≤ row.length ∧ rowKey row = k then some n else none

/-- The existing_map lookup over a full table: data rows start at sheet
row 2 (the header is row 1). -/
def existingLookup (t : List (List String)) (k : String × String) : Option ℕ :=
  lookupKey k (t.drop 1) 2

/-- Lines 59-68 of tracker/writers.py: assign each new row its target
sheet row, an existing row number when the key is present, otherwise the
next free row (the map is not extended while assigning, exactly as in
the source). -/
def assignTargets (lookup : String × String → Option ℕ) :
    List (List String) → ℕ → List (ℕ × List String)
  | [], _ => []
  | r :: rs, next =>
      match lookup (rowKey r) with
      | some i => (i, r) :: assignTargets lookup rs next
      | none => (next, r) :: assignTargets lookup rs (next + 1)

/-- One batch_update entry applied to the sheet: writing to sheet row i
replaces that row when it exists and otherwise extends the sheet (with
empty rows in between if the target is past the end). -/
def applyUpdate (t : List (List String)) (u : ℕ × List String) : List (List String) :=
  if u.1 ≤ t.length then t.set (u.1 - 1) u.2
  else t ++ List.replicate (u.1 - 1 - t.length) [] ++ [u.2]

/-- Embedding of the upsert block of write_daily_metrics
(tracker/writers.py lines 52-70) as a pure table transformation: build
the key map from the existing table, assign a target row to every new
row, and batch-apply the updates. -/
def write_daily_metrics_upsert (t : List (List String)) (newRows : List (List String)) :
    List (List String) :=
  if newRows.isEmpty then t
  else (assignTargets (existingLookup t) newRows (t.length + 1)).foldl applyUpdate t

lemma rowKey_snd_short {row : List String} (h : row.length < 2) : (rowKey row).2 = "" := by
  unfold rowKey
  match row, h with
  | [], _ => rfl
  | [a], _ => rfl

lemma lookupKey_eq_none (k : String × String) :
    ∀ (l : List (List String)) (n : ℕ),
      (∀ row ∈ l, ¬(2 ≤ row.length ∧ rowKey row = k)) → lookupKey k l n = none
  | [], _, _ => rfl
  | row :: rest, n, h => by
      simp only [lookupKey]
      rw [lookupKey_eq_none k rest (n + 1) (fun x hx => h x (List.mem_cons_of_mem _ hx))]
      simp [h row (List.mem_cons_self _ _)]

lemma lookupKey_eq_some (k : String × String) :
    ∀ (l1 : List (List String)) (r0 : List String) (l2 : List (List String)) (n : ℕ),
      (∀ row ∈ l1, ¬(2 ≤ row.length ∧ rowKey row = k)) →
      (∀ row ∈ l2, ¬(2 ≤ row.length ∧ rowKey row = k)) →
      (2 ≤ r0.length ∧ rowKey r0 = k) →
      lookupKey k (l1 ++ r0 :: l2) n = some (n + l1.length)
  | [], r0, l2, n, _, h2, h0 => by
      simp only [List.nil_append, lookupKey]
      rw [lookupKey_eq_none k l2 (n + 1) h2]
      simp [h0]
  | x :: l1, r0, l2, n, h1, h2, h0 => by
      simp only [List.cons_append, lookupKey, List.append_eq]
      rw [lookupKey_eq_some k l1 r0 l2 (n + 1)
        (fun y hy => h1 y (List.mem_cons_of_mem _ hy)) h2 h0]
      simp only [List.length_cons]
      exact congrArg some (by omega)

lemma set_append_cons {α : Type} (l1 : List α) (a : α) (l2 : List α) (b : α) :
    (l1 ++ a :: l2).set l1.length b = l1 ++ b :: l2 := by
  induction l1 with
  | nil => rfl
  | cons x l1 ih => simpa [List.set_cons_succ] using ih

/-- Upserting one row whose key is present on exactly one well-formed
data row overwrites that row in place. -/
lemma upsert_single_found (headers : List String) (l1 : List (List String))
    (r0 : List String) (l2 : List (List String)) (r : List String)
    (h1 : ∀ row ∈ l1, ¬(2 ≤ row.length ∧ rowKey row = rowKey r))
    (h2 : ∀ row ∈ l2, ¬(2 ≤ row.length ∧ rowKey row = rowKey r))
    (h0 : 2 ≤ r0.length ∧ rowKey r0 = rowKey r) :
    write_daily_metrics_upsert (headers :: (l1 ++ r0 :: l2)) [r]
      = headers :: (l1 ++ r :: l2) := by
  unfold write_daily_metrics_upsert
  simp only [List.isEmpty, Bool.false_eq_true, if_false]
  unfold assignTargets existingLookup
  rw [show (headers :: (l1 ++ r0 :: l2)).drop 1 = l1 ++ r0 :: l2 from rfl]
  rw [lookupKey_eq_some (rowKey r) l1 r0 l2 2 h1 h2 h0]
  simp only [assignTargets, List.foldl]
  unfold applyUpdate
  rw [if_pos (by simp; omega)]
  have e : 2 + l1.length - 1 = l1.length + 1 := by omega
  simp only [e, List.set_cons_succ]
  rw [set_append_cons]

/-- Upserting one row whose key is absent from the data rows appends it. -/
lemma upsert_single_notfound (headers : List String) (rows0 : List (List String))
    (r : List String)
    (h : ∀ row ∈ rows0, ¬(2 ≤ row.length ∧ rowKey row = rowKey r)) :
    write_daily_metrics_upsert (headers :: rows0) [r]
      = headers :: (rows0 ++ [r]) := by
  unfold write_daily_metrics_upsert
  simp only [List.isEmpty, Bool.false_eq_true, if_false]
  unfold assignTargets existingLookup
  rw [show (headers :: rows0).drop 1 = rows0 from rfl]
  rw [lookupKey_eq_none (rowKey r) rows0 2 h]
  simp only [assignTargets, List.foldl]
  unfold applyUpdate
  rw [if_neg (by simp)]
  simp

lemma rowKey_match_iff {r row : List String} (hdate : r.getD 1 "" ≠ "") :
    (2 ≤ row.length ∧ rowKey row = rowKey r) ↔ rowKey row = rowKey r := by
  refine ⟨fun h => h.2, fun h => ⟨?_, h⟩⟩
  by_contra hlt
  have h2 : (rowKey row).2 = "" := rowKey_snd_short (by omega)
  rw [h] at h2
  exact hdate h2

/-- C3: on a table whose data rows have pairwise distinct upsert keys,
upserting a row r and then a row r2 with the same (lowercased username,
date) key leaves exactly one data row for that key, that row is r2 (the
second call wins), the header is untouched, and every original position
holding a different key is unchanged. -/
theorem write_daily_metrics_upsert_idempotent
    (headers : List String) (rows0 : List (List String)) (r r2 : List String)
    (hlen : 2 ≤ r.length) (hdate : r.getD 1 "" ≠ "")
    (hkey : rowKey r2 = rowKey r)
    (huniq : rows0.Pairwise (fun x y => rowKey x ≠ rowKey y)) :
    ∃ t2, write_daily_metrics_upsert
        (write_daily_metrics_upsert (headers :: rows0) [r]) [r2] = t2
      ∧ (t2.drop 1).countP (fun x => decide (rowKey x = rowKey r)) = 1
      ∧ (∀ x ∈ t2.drop 1, rowKey x = rowKey r → x = r2)
      ∧ t2.headD [] = headers
      ∧ (∀ i, i < (headers :: rows0).length →
          rowKey ((headers :: rows0).getD i []) ≠ rowKey r →
          t2.getD i [] = (headers :: rows0).getD i []) := by
  by_cases hmem : ∃ row ∈ rows0, rowKey row = rowKey r
  · obtain ⟨r0, hr0mem, hr0key⟩ := hmem
    obtain ⟨l1, l2, rfl⟩ := List.append_of_mem hr0mem
    rw [List.pairwise_append] at huniq
    have hl1 : ∀ row ∈ l1, rowKey row ≠ rowKey r := by
      intro row hrow
      have := huniq.2.2 row hrow r0 (List.mem_cons_self _ _)
      rw [hr0key] at this
      exact this
    have hl2 : ∀ row ∈ l2, rowKey row ≠ rowKey r := by
      intro row hrow
      have := (List.pairwise_cons.mp huniq.2.1).1 row hrow
      rw [hr0key] at this
      exact fun h => this h.symm
    have hl1m : ∀ row ∈ l1, ¬(2 ≤ row.length ∧ rowKey row = rowKey r) :=
      fun row hrow h => hl1 row hrow h.2
    have hl2m : ∀ row ∈ l2, ¬(2 ≤ row.length ∧ rowKey row = rowKey r) :=
      fun row hrow h => hl2 row hrow h.2
    have hr0len : 2 ≤ r0.length := ((rowKey_match_iff hdate).mpr hr0key).1
    have step1 : write_daily_metrics_upsert (headers :: (l1 ++ r0 :: l2)) [r]
        = headers :: (l1 ++ r :: l2) :=
      upsert_single_found headers l1 r0 l2 r hl1m hl2m ⟨hr0len, hr0key⟩
    have hl1m2 : ∀ row ∈ l1, ¬(2 ≤ row.length ∧ rowKey row = rowKey r2) := by
      rw [hkey]; exact hl1m
    have hl2m2 : ∀ row ∈ l2, ¬(2 ≤ row.length ∧ rowKey row = rowKey r2) := by
      rw [hkey]; exact hl2m
    have step2 : write_daily_metrics_upsert (headers :: (l1 ++ r :: l2)) [r2]
        = headers :: (l1 ++ r2 :: l2) :=
      upsert_single_found headers l1 r l2 r2 hl1m2 hl2m2 ⟨hlen, hkey.symm⟩
    refine ⟨headers :: (l1 ++ r2 :: l2), by rw [step1, step2], ?_, ?_, rfl, ?_⟩
    · simp only [List.drop_one, List.tail_cons, List.countP_append, List.countP_cons]
      rw [List.countP_eq_zero.mpr (by intro a ha; simpa using hl1 a ha),
        List.countP_eq_zero.mpr (by intro a ha; simpa using hl2 a ha)]
      simp [hkey]
    · intro x hx hxk
      simp only [List.drop_one, List.tail_cons] at hx
      rcases List.mem_append.mp hx with hx1 | hx2
      · exact absurd hxk (hl1 x hx1)
      · rcases List.mem_cons.mp hx2 with rfl | hx3
        · rfl
        · exact absurd hxk (hl2 x hx3)
    · intro i hi hne
      have hset : headers :: (l1 ++ r2 :: l2)
          = (headers :: (l1 ++ r0 :: l2)).set (l1.length + 1) r2 := by
        rw [List.set_cons_succ, set_append_cons]
      have hr0at : (headers :: (l1 ++ r0 :: l2)).getD (l1.length + 1) [] = r0 := by
        rw [List.getD_eq_getElem?_getD, List.getElem?_cons_succ,
          List.getElem?_append_right (le_refl l1.length)]
        simp
      have hir : l1.length + 1 ≠ i := by
        intro h
        rw [← h] at hne
        rw [hr0at] at hne
        exact hne hr0key
      rw [hset, List.getD_eq_getElem?_getD, List.getElem?_set_ne hir,
        ← List.getD_eq_getElem?_getD]
  · push_neg at hmem
    have hm : ∀ row ∈ rows0, ¬(2 ≤ row.length ∧ rowKey row = rowKey r) :=
      fun row hrow h => hmem row hrow h.2
    have step1 : write_daily_metrics_upsert (headers :: rows0) [r]
        = headers :: (rows0 ++ [r]) :=
      upsert_single_notfound headers rows0 r hm
    have hm2 : ∀ row ∈ rows0, ¬(2 ≤ row.length ∧ rowKey row = rowKey r2) := by
      rw [hkey]; exact hm
    have step2 : write_daily_metrics_upsert (headers :: (rows0 ++ [r])) [r2]
        = headers :: (rows0 ++ [r2]) :=
      upsert_single_found headers rows0 r [] r2 hm2 (by simp) ⟨hlen, hkey.symm⟩
    refine ⟨headers :: (rows0 ++ [r2]), by rw [step1, step2], ?_, ?_, rfl, ?_⟩
    · simp only [List.drop_one, List.tail_cons, List.countP_append, List.countP_cons]
      rw [List.countP_eq_zero.mpr (by intro a ha; simpa using hmem a ha)]
      simp [hkey]
    · intro x hx hxk
      simp only [List.drop_one, List.tail_cons] at hx
      rcases List.mem_append.mp hx with hx1 | hx2
      · exact absurd hxk (hmem x hx1)
      · rcases List.mem_cons.mp hx2 with rfl | hx3
        · rfl
        · simp at hx3
    · intro i hi _
      have : headers :: (rows0 ++ [r2]) = (headers :: rows0) ++ [r2] := by simp
      rw [this, List.getD_eq_getElem?_getD, List.getElem?_append_left hi,
        ← List.getD_eq_getElem?_getD]

/-- Witness for C3 on a concrete two-row table. -/
theorem write_daily_metrics_upsert_idempotent_witness :
    ∃ t2, write_daily_metrics_upsert
        (write_daily_metrics_upsert
          (["Username", "Date"] :: [["bob", "2024-01-01", "5"]])
          [["amy", "2024-01-02", "1"]]) [["amy", "2024-01-02", "2"]] = t2
      ∧ (t2.drop 1).countP
          (fun x => decide (rowKey x = rowKey ["amy", "2024-01-02", "1"])) = 1
      ∧ (∀ x ∈ t2.drop 1, rowKey x = rowKey ["amy", "2024-01-02", "1"]
          → x = ["amy", "2024-01-02", "2"])
      ∧ t2.headD [] = ["Username", "Date"]
      ∧ (∀ i, i < (["Username", "Date"] :: [["bob", "2024-01-01", "5"]]).length →
          rowKey ((["Username", "Date"] :: [["bob", "2024-01-01", "5"]]).getD i [])
            ≠ rowKey ["amy", "2024-01-02", "1"] →
          t2.getD i [] = (["Username", "Date"] :: [["bob", "2024-01-01", "5"]]).getD i []) :=
  write_daily_metrics_upsert_idempotent ["Username", "Date"] [["bob", "2024-01-01", "5"]]
    ["amy", "2024-01-02", "1"] ["amy", "2024-01-02", "2"]
    (by norm_num) (by decide) (by rfl) (by simp)

/-- One data row of the Daily Raw Metrics tab as the aggregation code
reads it: the numeric cells are the values produced by the safe_int /
safe_num converters of tracker/writers.py (counts as ints, merge time as
a float; unparseable cells become 0 at that boundary). -/
structure LedgerRow where
  username : String
  date : String
  commits : ℤ
  prs_opened : ℤ
  prs_merged : ℤ
  issues_opened : ℤ
  issue_comments : ℤ
  review_comments : ℤ
  lines_added : ℤ
  lines_deleted : ℤ
  merge_time : ℚ
deriving DecidableEq

/-- Date-window test of write_period_leaderboard line 247: skip the row
when date_str < start_date or date_str > end_date (string comparison on
ISO dates, exactly as the source compares them). -/
def inRangeB (s e : String) (r : LedgerRow) : Bool :=
  !(decide (r.date < s)) && !(decide (e < r.date))

/-- Python dict key insertion: a new key goes to the end, an existing
key keeps its place. -/
def insertKey (ks : List String) (u : String) : List String :=
  if u ∈ ks then ks else ks ++ [u]

/-- The learner keys of the learner_data dict built by
write_period_leaderboard lines 242-258: one key per distinct username
string (exactly as stored in the row) among the in-range rows, in first
appearance order. -/
def period_learner_keys (rows : List LedgerRow) (s e : String) : List String :=
  (rows.filter (fun r => inRangeB s e r)).foldl (fun ks r => insertKey ks r.username) []

/-- Activity test of write_alerts line 545: any of the eight activity
columns strictly positive. -/
def hasActivity (r : LedgerRow) : Prop :=
  0 < r.commits ∨ 0 < r.prs_opened ∨ 0 < r.prs_merged ∨ 0 < r.issues_opened
    ∨ 0 < r.issue_comments ∨ 0 < r.review_comments ∨ 0 < r.lines_added ∨ 0 < r.lines_deleted

instance (r : LedgerRow) : Decidable (hasActivity r) := by
  unfold hasActivity
  infer_instance

/-- The user_last_active dict of write_alerts lines 539-550, read at one
username: the maximum date over the activity rows whose username cell is
exactly u, or the empty string when there is none. -/
def user_last_active (rows : List LedgerRow) (u : String) : String :=
  rows.foldl (fun acc r =>
    if r.username = u ∧ hasActivity r ∧ acc < r.date then r.date else acc) ""

/-- Line 559 of tracker/writers.py: user_last_active.get(username) or
entry last_active fallback; a username absent from the dict (or an empty
stored date, which Python treats as falsy) falls back to the leaderboard
entry value. -/
def alert_last_active (rows : List LedgerRow) (username lbLastActive : String) : String :=
  if user_last_active rows username = "" then lbLastActive else user_last_active rows username

/-- The user_recent_active_days dict of write_alerts lines 552-553, read
at one username: the number of activity rows for exactly that username
with date at or after the week cutoff. -/
def user_recent_active_days (rows : List LedgerRow) (u weekCutoff : String) : ℕ :=
  (rows.filter (fun r =>
    decide (r.username = u) && decide (hasActivity r) && decide (weekCutoff ≤ r.date))).length

/-- C4 counterexample: two ledger rows whose usernames differ only in
letter case are aggregated by write_period_leaderboard as two distinct
learners (the learner_data dict is keyed by the raw username string),
and write_alerts matches recency by the exact username: the activity row
of Amy does not update the last_active of an entry named amy, while it
does for an entry named Amy. -/
theorem period_and_alerts_case_sensitive :
    period_learner_keys
      [⟨"Amy", "2099-01-01", 1, 0, 0, 0, 0, 0, 0, 0, 0⟩,
       ⟨"amy", "2099-01-01", 1, 0, 0, 0, 0, 0, 0, 0, 0⟩]
      "2099-01-01" "2099-01-01" = ["Amy", "amy"]
    ∧ alert_last_active [⟨"Amy", "2099-01-01", 1, 0, 0, 0, 0, 0, 0, 0, 0⟩] "amy" "Never"
        = "Never"
    ∧ alert_last_active [⟨"Amy", "2099-01-01", 1, 0, 0, 0, 0, 0, 0, 0, 0⟩] "Amy" "Never"
        = "2099-01-01" := by
  refine ⟨?_, ?_, ?_⟩
  · simp +decide [period_learner_keys, inRangeB, insertKey]
  · simp +decide [alert_last_active, user_last_active]
  · simp +decide [alert_last_active, user_last_active, hasActivity]

lemma mem_insertKey {acc : List String} {v u : String} :
    u ∈ insertKey acc v ↔ u ∈ acc ∨ u = v := by
  unfold insertKey
  split_ifs with h
  · constructor
    · exact fun hu => Or.inl hu
    · rintro (hu | rfl)
      · exact hu
      · exact h
  · simp

lemma mem_foldl_insertKey (u : String) :
    ∀ (l : List LedgerRow) (acc : List String),
      u ∈ l.foldl (fun ks r => insertKey ks r.username) acc
        ↔ u ∈ acc ∨ ∃ r ∈ l, r.username = u
  | [], acc => by simp
  | r :: l, acc => by
      simp only [List.foldl_cons, mem_foldl_insertKey u l, mem_insertKey]
      constructor
      · rintro ((hu | rfl) | ⟨r2, hr2, hr2u⟩)
        · exact Or.inl hu
        · exact Or.inr ⟨r, List.mem_cons_self _ _, rfl⟩
        · exact Or.inr ⟨r2, List.mem_cons_of_mem _ hr2, hr2u⟩
      · rintro (hu | ⟨r2, hr2, hr2u⟩)
        · exact Or.inl (Or.inl hu)
        · rcases List.mem_cons.mp hr2 with rfl | hr2l
          · exact Or.inl (Or.inr hr2u.symm)
          · exact Or.inr ⟨r2, hr2l, hr2u⟩

lemma user_last_active_foldl_filter (u : String) :
    ∀ (rows : List LedgerRow) (acc : String),
      rows.foldl (fun acc r =>
          if r.username = u ∧ hasActivity r ∧ acc < r.date then r.date else acc) acc
        = (rows.filter (fun r => decide (r.username = u))).foldl (fun acc r =>
          if r.username = u ∧ hasActivity r ∧ acc < r.date then r.date else acc) acc
  | [], _ => rfl
  | r :: rows, acc => by
      by_cases h : r.username = u
      · rw [List.filter_cons_of_pos (by simp [h]), List.foldl_cons, List.foldl_cons]
        exact user_last_active_foldl_filter u rows _
      · rw [List.filter_cons_of_neg (by simp [h]), List.foldl_cons,
          if_neg (fun hc => h hc.1)]
        exact user_last_active_foldl_filter u rows acc

/-- C4 as amended: the daily upsert keys usernames lowercased, but the
period aggregation and the alert recency matching are exact-string:
a username is an aggregation key of write_period_leaderboard exactly
when some in-range row carries that exact username string, and the
last_active used by write_alerts for an entry depends only on ledger
rows whose username cell equals the entry username exactly. -/
theorem period_and_alerts_exact_username :
    (∀ (rows : List LedgerRow) (s e u : String),
      u ∈ period_learner_keys rows s e ↔ ∃ r ∈ rows, inRangeB s e r = true ∧ r.username = u)
    ∧ (∀ (rows : List LedgerRow) (u fb : String),
      alert_last_active rows u fb
        = alert_last_active (rows.filter (fun r => decide (r.username = u))) u fb) := by
  constructor
  · intro rows s e u
    unfold period_learner_keys
    rw [mem_foldl_insertKey]
    simp only [List.not_mem_nil, false_or, List.mem_filter]
    constructor
    · rintro ⟨r, ⟨hr, hir⟩, hu⟩
      exact ⟨r, hr, hir, hu⟩
    · rintro ⟨r, hr, hir, hu⟩
      exact ⟨r, ⟨hr, hir⟩, hu⟩
  · intro rows u fb
    unfold alert_last_active user_last_active
    rw [user_last_active_foldl_filter]

/-- The merge-time accumulator of write_period_leaderboard lines
279-281, folded over a list of ledger rows: a row contributes its
merge_time times prs_merged to the weighted sum and prs_merged to the
count only when both prs_merged and merge_time are strictly positive. -/
def mergeStats (rows : List LedgerRow) : ℚ × ℤ :=
  rows.foldl (fun sc r =>
    if 0 < r.prs_merged ∧ 0 < r.merge_time
    then (sc.1 + r.merge_time * (r.prs_merged : ℚ), sc.2 + r.prs_merged)
    else sc) (0, 0)

/-- The in-range rows of one learner, by exact username (the learner_data
dict key, see period_learner_keys). -/
def rows_in_range_for (rows : List LedgerRow) (s e u : String) : List LedgerRow :=
  rows.filter (fun r => inRangeB s e r && decide (r.username = u))

/-- Lines 322-323 of tracker/writers.py: the period avg_merge_time of one
learner, the weighted sum over the accumulated count, or 0 when the
count is zero. -/
def period_avg_merge_time (rows : List LedgerRow) (s e u : String) : ℚ :=
  if 0 < (mergeStats (rows_in_range_for rows s e u)).2
  then (mergeStats (rows_in_range_for rows s e u)).1
    / ((mergeStats (rows_in_range_for rows s e u)).2 : ℚ)
  else 0

/-- The formula the specification states for the period avg_merge_time,
written from the spec words: the sum over days of day merge time times
day merged count, divided by the sum over days of day merged count, and
0 when the denominator is zero. -/
def spec_weighted_mean (rows : List LedgerRow) : ℚ :=
  if (rows.map (fun r => r.prs_merged)).sum = 0 then 0
  else (rows.map (fun r => r.merge_time * (r.prs_merged : ℚ))).sum
    / (((rows.map (fun r => r.prs_merged)).sum : ℤ) : ℚ)

/-- C5 counterexample: a learner with one day of one merged PR at 10
hours and one day of one merged PR recorded with merge time 0 gets
period avg_merge_time 10 from the code (the zero-merge-time day is
dropped from the denominator), while the formula of the claim, the
weighted mean over all days in range, gives 5. -/
theorem period_avg_merge_time_counterexample :
    period_avg_merge_time
      [⟨"amy", "2024-01-01", 0, 0, 1, 0, 0, 0, 0, 0, 10⟩,
       ⟨"amy", "2024-01-02", 0, 0, 1, 0, 0, 0, 0, 0, 0⟩]
      "2024-01-01" "2024-01-02" "amy" = 10
    ∧ spec_weighted_mean (rows_in_range_for
      [⟨"amy", "2024-01-01", 0, 0, 1, 0, 0, 0, 0, 0, 10⟩,
       ⟨"amy", "2024-01-02", 0, 0, 1, 0, 0, 0, 0, 0, 0⟩]
      "2024-01-01" "2024-01-02" "amy") = 5
    ∧ period_avg_merge_time
      [⟨"amy", "2024-01-01", 0, 0, 1, 0, 0, 0, 0, 0, 10⟩,
       ⟨"amy", "2024-01-02", 0, 0, 1, 0, 0, 0, 0, 0, 0⟩]
      "2024-01-01" "2024-01-02" "amy"
      ≠ spec_weighted_mean (rows_in_range_for
      [⟨"amy", "2024-01-01", 0, 0, 1, 0, 0, 0, 0, 0, 10⟩,
       ⟨"amy", "2024-01-02", 0, 0, 1, 0, 0, 0, 0, 0, 0⟩]
      "2024-01-01" "2024-01-02" "amy") := by
  have hr : rows_in_range_for
      [⟨"amy", "2024-01-01", 0, 0, 1, 0, 0, 0, 0, 0, 10⟩,
       ⟨"amy", "2024-01-02", 0, 0, 1, 0, 0, 0, 0, 0, 0⟩]
      "2024-01-01" "2024-01-02" "amy"
      = [⟨"amy", "2024-01-01", 0, 0, 1, 0, 0, 0, 0, 0, 10⟩,
         ⟨"amy", "2024-01-02", 0, 0, 1, 0, 0, 0, 0, 0, 0⟩] := by
    unfold rows_in_range_for inRangeB
    rw [List.filter_cons_of_pos, List.filter_cons_of_pos] <;> simp +decide
  have e1 : period_avg_merge_time
      [⟨"amy", "2024-01-01", 0, 0, 1, 0, 0, 0, 0, 0, 10⟩,
       ⟨"amy", "2024-01-02", 0, 0, 1, 0, 0, 0, 0, 0, 0⟩]
      "2024-01-01" "2024-01-02" "amy" = 10 := by
    unfold period_avg_merge_time
    rw [hr]
    norm_num [mergeStats]
  have e2 : spec_weighted_mean (rows_in_range_for
      [⟨"amy", "2024-01-01", 0, 0, 1, 0, 0, 0, 0, 0, 10⟩,
       ⟨"amy", "2024-01-02", 0, 0, 1, 0, 0, 0, 0, 0, 0⟩]
      "2024-01-01" "2024-01-02" "amy") = 5 := by
    rw [hr]
    norm_num [spec_weighted_mean]
  refine ⟨e1, e2, ?_⟩
  rw [e1, e2]
  norm_num

lemma mergeStats_foldl_eq :
    ∀ (l : List LedgerRow) (a : ℚ) (b : ℤ),
      l.foldl (fun sc r =>
          if 0 < r.prs_merged ∧ 0 < r.merge_time
          then (sc.1 + r.merge_time * (r.prs_merged : ℚ), sc.2 + r.prs_merged)
          else sc) (a, b)
        = (a + ((l.filter (fun r => decide (0 < r.prs_merged) && decide (0 < r.merge_time))).map
              (fun r => r.merge_time * (r.prs_merged : ℚ))).sum,
           b + ((l.filter (fun r => decide (0 < r.prs_merged) && decide (0 < r.merge_time))).map
              (fun r => r.prs_merged)).sum)
  | [], a, b => by simp
  | r :: l, a, b => by
      by_cases h : 0 < r.prs_merged ∧ 0 < r.merge_time
      · rw [List.filter_cons_of_pos (by simp [h.1, h.2]), List.foldl_cons, if_pos h]
        rw [mergeStats_foldl_eq l]
        simp only [List.map_cons, List.sum_cons, Prod.mk.injEq]
        constructor <;> ring
      · rw [List.filter_cons_of_neg (by simpa using fun h1 h2 => h ⟨h1, h2⟩),
          List.foldl_cons, if_neg h]
        exact mergeStats_foldl_eq l a b

lemma mergeStats_eq (l : List LedgerRow) :
    mergeStats l
      = (((l.filter (fun r => decide (0 < r.prs_merged) && decide (0 < r.merge_time))).map
            (fun r => r.merge_time * (r.prs_merged : ℚ))).sum,
         ((l.filter (fun r => decide (0 < r.prs_merged) && decide (0 < r.merge_time))).map
            (fun r => r.prs_merged)).sum) := by
  unfold mergeStats
  rw [mergeStats_foldl_eq]
  simp

/-- C5 as amended: the period avg_merge_time computed by
write_period_leaderboard equals the merge-count-weighted mean restricted
to the in-range days that recorded both a positive merged-PR count and a
positive merge time (days whose stored merge time is 0 contribute to
neither the numerator nor the denominator), and it is 0 when no such day
exists. -/
theorem period_avg_merge_time_weighted (rows : List LedgerRow) (s e u : String) :
    period_avg_merge_time rows s e u
      = spec_weighted_mean ((rows_in_range_for rows s e u).filter
          (fun r => decide (0 < r.prs_merged) && decide (0 < r.merge_time))) := by
  unfold period_avg_merge_time spec_weighted_mean
  rw [mergeStats_eq]
  have hnn : 0 ≤ (((rows_in_range_for rows s e u).filter
      (fun r => decide (0 < r.prs_merged) && decide (0 < r.merge_time))).map
        (fun r => r.prs_merged)).sum := by
    apply List.sum_nonneg
    intro x hx
    obtain ⟨r, hr, rfl⟩ := List.mem_map.mp hx
    have := List.mem_filter.mp hr
    have hpos : 0 < r.prs_merged := by simpa using (Bool.and_eq_true_iff.mp this.2).1
    omega
  split_ifs with h1 h2 h3
  · omega
  · rfl
  · rfl
  · omega

/-- Alert categories of write_alerts. -/
inductive AlertType where
  | inactive
  | atRisk
  | declining
deriving DecidableEq, Repr

/-- The alert list one leaderboard entry receives in write_alerts
(tracker/writers.py lines 561-573): INACTIVE when last_active is Never
or N/A or at most the inactive cutoff; AT RISK when the score is below
the at-risk threshold; DECLINING when the score is below the declining
threshold and the recent active days are below the minimum, unless an
INACTIVE alert is already present for this entry. -/
def entry_alerts (inactiveCutoff : String) (atRiskThreshold decliningThreshold : ℚ)
    (decliningMinDays : ℤ) (lastActive : String) (score : ℚ) (recentDays : ℤ) :
    List AlertType :=
  let a1 := if lastActive = "Never" ∨ lastActive = "N/A" ∨ lastActive ≤ inactiveCutoff
    then [AlertType.inactive] else []
  let a2 := if score < atRiskThreshold then a1 ++ [AlertType.atRisk] else a1
  if score < decliningThreshold ∧ recentDays < decliningMinDays then
    (if AlertType.inactive ∈ a2 then a2 else a2 ++ [AlertType.declining])
  else a2

/-- One leaderboard entry as write_alerts reads it. -/
structure LeaderboardEntry where
  username : String
  total_score : ℚ
  last_active : String
deriving DecidableEq

/-- The full per-entry evaluation of write_alerts (lines 555-573): the
ledger-derived last_active and trailing-week activity count feed the
alert conditions together with the entry score. -/
def alert_types_for (rows : List LedgerRow) (inactiveCutoff weekCutoff : String)
    (atRiskThreshold decliningThreshold : ℚ) (decliningMinDays : ℤ)
    (entry : LeaderboardEntry) : List AlertType :=
  entry_alerts inactiveCutoff atRiskThreshold decliningThreshold decliningMinDays
    (alert_last_active rows entry.username entry.last_active)
    entry.total_score
    ((user_recent_active_days rows entry.username weekCutoff : ℤ))

/-- C10: in one evaluation of write_alerts, no leaderboard entry ever
receives both an INACTIVE and a DECLINING alert row: whenever the
INACTIVE condition fires, the DECLINING append is suppressed. -/
theorem alerts_inactive_suppresses_declining (rows : List LedgerRow)
    (inactiveCutoff weekCutoff : String) (atRiskThreshold decliningThreshold : ℚ)
    (decliningMinDays : ℤ) (entry : LeaderboardEntry) :
    ((alert_types_for rows inactiveCutoff weekCutoff atRiskThreshold decliningThreshold
        decliningMinDays entry).contains AlertType.inactive
      && (alert_types_for rows inactiveCutoff weekCutoff atRiskThreshold decliningThreshold
        decliningMinDays entry).contains AlertType.declining) = false := by
  unfold alert_types_for entry_alerts
  split_ifs <;> simp_all [List.contains]

/-- One tracked learner, as produced by discover_learners. -/
structure Learner where
  username : String
  fork_repo : String
  base_repo : String
deriving DecidableEq

/-- One fork item as returned by the fork-listing API call. -/
structure Fork where
  owner_login : String
  full_name : String
  created_at : String
deriving DecidableEq

/-- Line 26 of fork_discovery.py: the fork is skipped when a bootcamp
start date is set and the first ten characters of created_at compare
below it (Python tests the truthiness of bootcamp_start_date first). -/
def skipFork (bootcampStart : Option String) (fork : Fork) : Bool :=
  match bootcampStart with
  | some d => decide (fork.created_at.take 10 < d)
  | none => false

/-- The inner fork loop of fork_discovery.py lines 24-39 for one base
repo: skip forks created before the bootcamp start, skip excluded and
already seen owners (both lowercased), and otherwise record the owner.
The state is the seen set (as a list of lowercased names) and the
accumulated learners. -/
def foldForks (excluded : List String) (bootcampStart : Option String) (repoFull : String) :
    List String × List Learner → List Fork → List String × List Learner
  | st, [] => st
  | (seen, ls), fork :: rest =>
      if skipFork bootcampStart fork
      then foldForks excluded bootcampStart repoFull (seen, ls) rest
      else if fork.owner_login.toLower ∈ excluded then
        foldForks excluded bootcampStart repoFull (seen, ls) rest
      else if fork.owner_login.toLower ∈ seen then
        foldForks excluded bootcampStart repoFull (seen, ls) rest
      else foldForks excluded bootcampStart repoFull
        (seen ++ [fork.owner_login.toLower],
          ls ++ [⟨fork.owner_login, fork.full_name, repoFull⟩]) rest

/-- The outer repo loop of fork_discovery.py lines 20-39: one fork-list
fetch per base repo; a raised fetch error propagates (there is no
try/except around get_forks in the source). -/
def discoverRepos (getForks : String → Except String (List Fork))
    (excluded : List String) (bootcampStart : Option String) :
    List String → List String × List Learner → Except String (List String × List Learner)
  | [], st => .ok st
  | repo :: rest, st =>
      match getForks repo with
      | .error e => .error e
      | .ok forks => discoverRepos getForks excluded bootcampStart rest
          (foldForks excluded bootcampStart repo st forks)

/-- The manual-user loop of fork_discovery.py lines 41-44: append each
manual entry whose lowercased username is neither seen nor excluded. -/
def foldManual (excluded : List String) :
    List String × List Learner → List Learner → List String × List Learner
  | st, [] => st
  | (seen, ls), entry :: rest =>
      if entry.username.toLower ∉ seen ∧ entry.username.toLower ∉ excluded
      then foldManual excluded (seen ++ [entry.username.toLower], ls ++ [entry]) rest
      else foldManual excluded (seen, ls) rest

/-- Embedding of fork_discovery.py discover_learners.  The GitHub client
is the function getForks; a raised exception is an error value.  The
source lowercases the exclusion list once at entry (line 16). -/
def discover_learners (getForks : String → Except String (List Fork))
    (repos : List String) (excluded : List String)
    (manualUsers : List Learner) (bootcampStart : Option String) :
    Except String (List Learner) :=
  match discoverRepos getForks (excluded.map String.toLower) bootcampStart repos ([], []) with
  | .error e => .error e
  | .ok st => .ok (foldManual (excluded.map String.toLower) st manualUsers).2

/-- C8 counterexample: with two base repos where the fork listing of the
first raises, discover_learners raises too: the second repo and the
manual users are never processed, contradicting the claim that the
failing repo merely contributes zero learners. -/
theorem discover_learners_counterexample :
    discover_learners
      (fun repo => if repo = "base/one" then .error "boom"
        else .ok [⟨"zed", "zed/fork", "2024-03-01T00:00:00Z"⟩])
      ["base/one", "base/two"] [] [⟨"manny", "manny/fork", "base/two"⟩] none
      = .error "boom" := rfl

lemma discoverRepos_error (getForks : String → Except String (List Fork))
    (excluded : List String) (bootcampStart : Option String)
    (repo : String) (post : List String) (e : String) (herr : getForks repo = .error e) :
    ∀ (pre : List String) (st : List String × List Learner),
      (∀ p ∈ pre, ∃ fs, getForks p = .ok fs) →
      discoverRepos getForks excluded bootcampStart (pre ++ repo :: post) st = .error e
  | [], st, _ => by
      simp only [List.nil_append, discoverRepos, herr]
  | p :: pre, st, hpre => by
      obtain ⟨fs, hfs⟩ := hpre p (List.mem_cons_self _ _)
      simp only [List.cons_append, discoverRepos, hfs]
      exact discoverRepos_error getForks excluded bootcampStart repo post e herr pre _
        (fun q hq => hpre q (List.mem_cons_of_mem _ hq))

/-- C8 as amended: discover_learners performs no error isolation itself:
when the fork listing raises for some base repo (all repos before it in
the list succeeding), discover_learners raises that same error, and
neither the remaining base repos nor the manual users produce any
returned learners. -/
theorem discover_learners_propagates_fork_error
    (getForks : String → Except String (List Fork))
    (pre post : List String) (repo : String) (excluded : List String)
    (manualUsers : List Learner) (bootcampStart : Option String) (e : String)
    (hpre : ∀ p ∈ pre, ∃ fs, getForks p = .ok fs)
    (herr : getForks repo = .error e) :
    discover_learners getForks (pre ++ repo :: post) excluded manualUsers bootcampStart
      = .error e := by
  unfold discover_learners
  rw [discoverRepos_error getForks (excluded.map String.toLower) bootcampStart repo post e
    herr pre ([], []) hpre]

/-- Witness for C8 as amended: a concrete fetcher that succeeds on the
first repo and fails on the second. -/
theorem discover_learners_propagates_fork_error_witness :
    discover_learners
      (fun repo => if repo = "base/zero" then .ok [⟨"zed", "zed/fork", "2024-03-01T00:00:00Z"⟩]
        else .error "down")
      (["base/zero"] ++ "base/one" :: []) [] [] none
      = .error "down" :=
  discover_learners_propagates_fork_error
    (fun repo => if repo = "base/zero" then .ok [⟨"zed", "zed/fork", "2024-03-01T00:00:00Z"⟩]
      else .error "down")
    ["base/zero"] [] "base/one" [] [] none "down"
    (by intro p hp; simp at hp; subst hp; exact ⟨_, rfl⟩)
    (by simp)

/-- A raised Python exception. -/
inductive PyError where
  | typeError (msg : String)
deriving DecidableEq

/-- The non-raising exits of write_period_leaderboard: table empty
(line 208), no learner in range (line 290), unparsable date range
(line 298). -/
inductive PeriodWriteOutcome where
  | noData
  | noLearnerData
  | invalidDateRange
deriving DecidableEq

/-- The col_map lookup of write_period_leaderboard lines 215-226: the
index of the named header column (the last occurrence wins, as in a
Python dict comprehension), or the stated default when absent. -/
def colIdx (headers : List String) (name : String) (dflt : ℕ) : ℕ :=
  match ((List.range headers.length).filter
      (fun i => headers.getD i "" == name)).getLast? with
  | some i => i
  | none => dflt

/-- Splitting a character list at every hyphen, the list analogue of the
splitting strptime performs for the %Y-%m-%d format. -/
def splitDash : List Char → List (List Char)
  | [] => [[]]
  | c :: rest =>
      if c = Char.ofNat 45 then [] :: splitDash rest
      else (c :: (splitDash rest).headD []) :: (splitDash rest).tail

/-- Decimal value of a digit list; 48 is the code point of the zero
digit. -/
def digitsToNat (cs : List Char) : ℕ :=
  cs.foldl (fun n c => 10 * n + (c.toNat - 48)) 0

/-- Approximation of datetime.strptime with format %Y-%m-%d used on
lines 296-297: four digit year, two digit month 01-12, two digit day
01-31 separated by hyphens.  (strptime additionally rejects day numbers
past the month end; no claim here depends on that refinement.) -/
def isIsoDate (s : String) : Bool :=
  match splitDash s.toList with
  | [y, m, d] =>
      decide (y.length = 4) && decide (m.length = 2) && decide (d.length = 2)
      && y.all Char.isDigit && m.all Char.isDigit && d.all Char.isDigit
      && decide (1 ≤ digitsToNat m) && decide (digitsToNat m ≤ 12)
      && decide (1 ≤ digitsToNat d) && decide (digitsToNat d ≤ 31)
  | _ => false

/-- Embedding of tracker/writers.py write_period_leaderboard (lines
191-395) up to its observable outcome.  The early exits mirror lines
208-210 (at most a header row), 290-292 (no in-range learner) and
296-300 (unparsable dates).  Otherwise the per-learner scoring loop
starts and its first iteration executes line 344,
compute_scores(metrics, period_config, end_date=period_end); the
compute_scores imported from tracker/scoring.py accepts exactly the two
parameters (metrics, config), so that call raises TypeError before
anything is written. -/
def write_period_leaderboard (table : List (List String))
    (startDate endDate : String) : Except PyError PeriodWriteOutcome :=
  if table.length ≤ 1 then .ok .noData
  else
    let headers := table.headD []
    let rows := table.drop 1
    let dateIdx := colIdx headers "Date" 1
    let usernameIdx := colIdx headers "Username" 0
    let keys := rows.foldl (fun ks row =>
      if row.length ≤ dateIdx then ks
      else if row.getD dateIdx "" < startDate ∨ endDate < row.getD dateIdx "" then ks
      else insertKey ks (row.getD usernameIdx "")) []
    if keys.isEmpty then .ok .noLearnerData
    else if ¬(isIsoDate startDate = true ∧ isIsoDate endDate = true) then .ok .invalidDateRange
    else .error (.typeError "compute_scores got an unexpected keyword argument end_date")

/-- C1: evaluation at the failing input.  A ledger with one row dated
2024-03-03 and the period 2024-03-03 to 2024-03-03 makes
write_period_leaderboard raise TypeError at the compute_scores call of
line 344 instead of writing a leaderboard: tracker/scoring.py
compute_scores has no end_date parameter. -/
theorem write_period_leaderboard_raises :
    write_period_leaderboard
      [["Username", "Date", "Commits", "PRs Opened", "PRs Merged", "Issues Opened",
        "Issue Comments", "PR Review Comments Given", "Lines Added", "Lines Deleted",
        "PR Avg Merge Time (hrs)", "PR Rejection Rate", "Last Updated"],
       ["amy", "2024-03-03", "1", "0", "0", "0", "0", "0", "0", "0", "0", "0",
        "2024-03-03T12:00:00Z"]]
      "2024-03-03" "2024-03-03"
      = .error (.typeError "compute_scores got an unexpected keyword argument end_date") := by
  have hDate : colIdx ["Username", "Date", "Commits", "PRs Opened", "PRs Merged",
      "Issues Opened", "Issue Comments", "PR Review Comments Given", "Lines Added",
      "Lines Deleted", "PR Avg Merge Time (hrs)", "PR Rejection Rate", "Last Updated"]
      "Date" 1 = 1 := by decide
  have hUser : colIdx ["Username", "Date", "Commits", "PRs Opened", "PRs Merged",
      "Issues Opened", "Issue Comments", "PR Review Comments Given", "Lines Added",
      "Lines Deleted", "PR Avg Merge Time (hrs)", "PR Rejection Rate", "Last Updated"]
      "Username" 0 = 0 := by decide
  have hIso : isIsoDate "2024-03-03" = true := by decide
  simp +decide [write_period_leaderboard, hDate, hUser, hIso, insertKey]

end Tracker
